import Mathlib

/-!
Shallow embedding of the websocket client core of the EdgeTune dashboard
(src/frontend/src/hooks/useWebSocket.ts): the bounded history stores, the
message router, the frame publisher, the notification channel and the
connection manager with exponential backoff, together with proofs of the
behavioural properties stated for them.
-/

namespace EdgeTune

/-- Opaque telemetry payload (`msg.data as TelemetrySnapshot`); the router
never inspects its fields, so it is modelled as an opaque tagged value. -/
structure TelemetrySnapshot where
  val : Nat
deriving DecidableEq

/-- Opaque autopilot-decision payload. -/
structure OptimizationDecision where
  val : Nat
deriving DecidableEq

/-- Opaque LLM-explanation payload. -/
structure LlmExplanation where
  val : Nat
deriving DecidableEq

/-- Opaque advisor-suggestion payload. -/
structure AdvisorSuggestion where
  val : Nat
deriving DecidableEq

/-- Opaque detection-summary payload. -/
structure DetectionSummary where
  val : Nat
deriving DecidableEq

/-- Opaque source-progress payload. -/
structure SourceProgress where
  val : Nat
deriving DecidableEq

/-- Video-frame payload: the router forwards `vf.frame` to subscribers. -/
structure VideoFrameData where
  frame : String
deriving DecidableEq

/-- Payload of a `status` envelope: `{ status, message }` (the optional
`extra` field is opaque and omitted). -/
structure StatusData where
  status : String
  message : String
deriving DecidableEq

/-- The value held by the notification channel:
`{ type: statusData.status, message: statusData.message }`. -/
structure NotificationValue where
  type : String
  message : String
deriving DecidableEq

/-- `const MAX_HISTORY = 120`. -/
def MAX_HISTORY : Nat := 120

/-- `const MAX_DECISIONS = 50`. -/
def MAX_DECISIONS : Nat := 50

/-- `const MAX_EXPLANATIONS = 50`. -/
def MAX_EXPLANATIONS : Nat := 50

/-- `const MAX_SUGGESTIONS = 20`. -/
def MAX_SUGGESTIONS : Nat := 20

/-- The bounded-stream append used by every history setter:
`const next = [...prev, x]; return next.length > cap ? next.slice(-cap) : next`.
For `cap ≥ 1`, `next.slice(-cap)` is the suffix of the last `cap` elements,
i.e. `next.drop (next.length - cap)`. -/
def boundedAppend (cap : Nat) (prev : List α) (x : α) : List α :=
  let next := prev ++ [x]
  if next.length > cap then next.drop (next.length - cap) else next

/-- A decoded envelope `WsMessage`, discriminated by its `type` tag; `other`
is a well-formed envelope whose tag is none of the recognized cases of the
`switch` statement. -/
inductive WsMessage where
  | telemetry (d : TelemetrySnapshot)
  | autopilotDecision (d : OptimizationDecision)
  | llmExplanation (d : LlmExplanation)
  | videoFrame (d : VideoFrameData)
  | advisorSuggestion (d : AdvisorSuggestion)
  | detectionSummary (d : DetectionSummary)
  | sourceProgress (d : SourceProgress)
  | status (d : StatusData)
  | other (tag : String)
deriving DecidableEq

/-- A raw inbound frame: either `JSON.parse` fails (`malformed`, the `catch`
branch) or it yields an envelope. -/
inductive InboundFrame where
  | malformed
  | envelope (msg : WsMessage)
deriving DecidableEq

/-- `frameListenersRef.current.add cb` — JS `Set.add`: a no-op when `cb` is
already present, otherwise appended in insertion order. -/
def listenerAdd (s : List Nat) (cb : Nat) : List Nat :=
  if cb ∈ s then s else s ++ [cb]

/-- `frameListenersRef.current.delete cb` — JS `Set.delete`. -/
def listenerDelete (s : List Nat) (cb : Nat) : List Nat :=
  s.erase cb

/-- The callbacks actually invoked by
`frameListenersRef.current.forEach((cb) => cb(vf.frame))`: JS `Set.forEach`
visits members in insertion order and skips a member deleted before its
visit; `removedBefore cb = true` means `cb` was unsubscribed before its
visit in this iteration. -/
def publishCalls (listeners : List Nat) (removedBefore : Nat → Bool) : List Nat :=
  listeners.filter (fun cb => !removedBefore cb)

/-- The sinks owned by the router: every bounded stream, every latest-value
slot and the notification channel. -/
structure SinkState where
  telemetry : Option TelemetrySnapshot
  telemetryHistory : List TelemetrySnapshot
  decisions : List OptimizationDecision
  explanations : List LlmExplanation
  suggestions : List AdvisorSuggestion
  detectionSummary : Option DetectionSummary
  sourceProgress : Option SourceProgress
  notification : Option NotificationValue
deriving DecidableEq

/-- The all-empty sinks (the initial `useState` values, and the state
produced by `resetState`). -/
def emptySinks : SinkState :=
  { telemetry := none
    telemetryHistory := []
    decisions := []
    explanations := []
    suggestions := []
    detectionSummary := none
    sourceProgress := none
    notification := none }

/-- Observable state of the hook: the sinks plus the refs
(`wsRef`, `retriesRef`, `mountedRef`, `frameListenersRef`) and the
`connected` flag. The `ws` field is the identity of the current WebSocket
object held in `wsRef`. -/
structure HookState where
  connected : Bool
  sinks : SinkState
  ws : Option Nat
  retries : Nat
  mounted : Bool
  frameListeners : List Nat
deriving DecidableEq

/-- The hook state right after mount, before any message. -/
def initState : HookState :=
  { connected := false
    sinks := emptySinks
    ws := none
    retries := 0
    mounted := true
    frameListeners := [] }

/-- The `ws.onmessage` handler (lines 74-141): decodes the frame and
dispatches by tag; returns the updated state together with the list of
frame deliveries `(cb, vf)` made to the subscribers. A malformed frame is
swallowed by the `catch` branch; an unrecognized tag falls through the
`switch` with no effect. -/
def onMessage (s : HookState) (f : InboundFrame) :
    HookState × List (Nat × VideoFrameData) :=
  match f with
  | .malformed => (s, [])
  | .envelope msg =>
    match msg with
    | .telemetry d =>
        ({ s with sinks :=
            { s.sinks with
                telemetry := some d
                telemetryHistory :=
                  boundedAppend MAX_HISTORY s.sinks.telemetryHistory d } }, [])
    | .autopilotDecision d =>
        ({ s with sinks :=
            { s.sinks with
                decisions := boundedAppend MAX_DECISIONS s.sinks.decisions d } }, [])
    | .llmExplanation d =>
        ({ s with sinks :=
            { s.sinks with
                explanations :=
                  boundedAppend MAX_EXPLANATIONS s.sinks.explanations d } }, [])
    | .videoFrame d =>
        (s, s.frameListeners.map (fun cb => (cb, d)))
    | .advisorSuggestion d =>
        ({ s with sinks :=
            { s.sinks with
                suggestions :=
                  boundedAppend MAX_SUGGESTIONS s.sinks.suggestions d } }, [])
    | .detectionSummary d =>
        ({ s with sinks := { s.sinks with detectionSummary := some d } }, [])
    | .sourceProgress d =>
        ({ s with sinks := { s.sinks with sourceProgress := some d } }, [])
    | .status d =>
        ({ s with sinks :=
            { s.sinks with
                notification := some { type := d.status, message := d.message } } }, [])
    | .other _ => (s, [])

/-- `resetState` (lines 165-174): sets every sink back to its empty value and
touches nothing else. -/
def resetState (s : HookState) : HookState :=
  { s with sinks := emptySinks }

/-- The events the hook reacts to: an inbound frame, an explicit reset, the
open/close transitions of the transport, the firing of a pending 5-second
notification-clear timer, and (un)subscription of a frame callback. -/
inductive HookEvent where
  | inbound (f : InboundFrame)
  | reset
  | opened
  | closed
  | notifTimer
  | subscribeFrames (cb : Nat)
  | unsubscribeFrames (cb : Nat)
deriving DecidableEq

/-- One step of the hook. `opened` is `ws.onopen` (connected, retry counter
reset); `closed` is `ws.onclose` (connected cleared; the retry counter is
bumped only while mounted, when a reconnect is scheduled); `notifTimer` is
the `setTimeout(() => setNotification(null), 5000)` callback firing. -/
def hookStep (s : HookState) (e : HookEvent) : HookState :=
  match e with
  | .inbound f => (onMessage s f).1
  | .reset => resetState s
  | .opened => { s with connected := true, retries := 0 }
  | .closed =>
      { s with
          connected := false
          retries := if s.mounted then s.retries + 1 else s.retries }
  | .notifTimer =>
      { s with sinks := { s.sinks with notification := none } }
  | .subscribeFrames cb =>
      { s with frameListeners := listenerAdd s.frameListeners cb }
  | .unsubscribeFrames cb =>
      { s with frameListeners := listenerDelete s.frameListeners cb }

/-- The reconnection delay in milliseconds for a given retry counter:
`Math.min(1000 * Math.pow(2, retries), 30000)`. -/
def backoffDelayMs (retries : Nat) : Nat :=
  min (1000 * 2 ^ retries) 30000

/-- Connection-manager state: the `mountedRef` flag, the retry counter, the
set of pending `setTimeout(connect, delay)` timers (their delays, in
schedule order — the code never clears them), whether a live transport is
open, the count of `new WebSocket` constructions made so far, and a log of
every reconnect delay ever scheduled. -/
structure ConnMgr where
  mounted : Bool
  retries : Nat
  pendingReconnects : List Nat
  wsLive : Bool
  connectCount : Nat
  connected : Bool
  scheduledLog : List Nat
deriving DecidableEq

/-- A fresh connection manager, right after mount, before `connect()` runs. -/
def connInit : ConnMgr :=
  { mounted := true
    retries := 0
    pendingReconnects := []
    wsLive := false
    connectCount := 0
    connected := false
    scheduledLog := [] }

/-- Connection-manager events: `connectCall` is a direct call of `connect()`;
`opened`/`closed` are `ws.onopen`/`ws.onclose`; `timerFire` is the earliest
pending reconnect timer firing (its callback is `connect`); `teardown` is
the unmount cleanup `mountedRef.current = false; wsRef.current?.close()`. -/
inductive ConnEvent where
  | connectCall
  | opened
  | closed
  | timerFire
  | teardown
deriving DecidableEq

/-- One step of the connection manager.

* `connect()` returns immediately when unmounted; otherwise it constructs a
  new WebSocket (`connectCount + 1`).
* `ws.onopen` marks connected and resets the retry counter to 0.
* `ws.onclose` clears connected, then — only while mounted — schedules
  `setTimeout(connect, min(1000 * 2^retries, 30000))` and increments the
  retry counter.
* A firing timer removes itself from the pending set and calls `connect`.
* Teardown clears the mounted flag and closes the live transport; it does
  NOT clear any pending timer (the code has no `clearTimeout`). -/
def connStep (s : ConnMgr) (e : ConnEvent) : ConnMgr :=
  match e with
  | .connectCall =>
      if s.mounted then { s with connectCount := s.connectCount + 1 } else s
  | .opened => { s with connected := true, wsLive := true, retries := 0 }
  | .closed =>
      if s.mounted then
        { s with
            connected := false
            wsLive := false
            pendingReconnects := s.pendingReconnects ++ [backoffDelayMs s.retries]
            scheduledLog := s.scheduledLog ++ [backoffDelayMs s.retries]
            retries := s.retries + 1 }
      else { s with connected := false, wsLive := false }
  | .timerFire =>
      match s.pendingReconnects with
      | [] => s
      | _ :: rest =>
          if s.mounted then
            { s with pendingReconnects := rest, connectCount := s.connectCount + 1 }
          else { s with pendingReconnects := rest }
  | .teardown => { s with mounted := false, wsLive := false }

/-- Notification-channel state with explicit time: the current value and the
absolute fire times of every pending `setTimeout(() => setNotification(null),
5000)` timer. The code never cancels these timers. -/
structure NotifState where
  notification : Option NotificationValue
  timers : List Nat
deriving DecidableEq

/-- Notification events: a `status` envelope processed at absolute time `t`
(milliseconds), or a pending clear-timer with fire time `t` firing. -/
inductive NotifEvent where
  | post (t : Nat) (v : NotificationValue)
  | fire (t : Nat)
deriving DecidableEq

/-- One step of the notification channel. A post overwrites the value and
schedules an unconditional clear at `t + 5000`; a firing timer sets the
value to `null` regardless of which post it belonged to. -/
def notifStep (s : NotifState) (e : NotifEvent) : NotifState :=
  match e with
  | .post t v =>
      { notification := some v, timers := s.timers ++ [t + 5000] }
  | .fire t =>
      if t ∈ s.timers then
        { notification := none, timers := s.timers.erase t }
      else s

/-! ### Lemmas about the bounded-stream append -/

/-- Appending to a bounded stream always leaves the new record as the last
element (for any positive capacity). -/
lemma getLast?_boundedAppend (cap : Nat) (hcap : 1 ≤ cap) (l : List α) (x : α) :
    (boundedAppend cap l x).getLast? = some x := by
  unfold boundedAppend
  by_cases h : (l ++ [x]).length > cap
  · simp only [h, if_true]
    have hle : (l ++ [x]).length - cap ≤ l.length := by
      simp only [List.length_append, List.length_singleton]
      omega
    rw [List.drop_append_of_le_length hle]
    exact List.getLast?_concat _
  · simp only [h, if_false]
    exact List.getLast?_concat _

/-- `l.drop (l.length - cap)` — the suffix of the last `cap` elements — is a
fixed point shape for `boundedAppend`: appending one record to the
last-`cap` suffix of `ys` yields the last-`cap` suffix of `ys ++ [x]`. -/
lemma boundedAppend_drop (cap : Nat) (hcap : 1 ≤ cap) (ys : List α) (x : α) :
    boundedAppend cap (ys.drop (ys.length - cap)) x
      = (ys ++ [x]).drop ((ys ++ [x]).length - cap) := by
  unfold boundedAppend
  by_cases hlen : ys.length < cap
  · have h0 : ys.length - cap = 0 := by omega
    have h0' : (ys ++ [x]).length - cap = 0 := by
      simp only [List.length_append, List.length_singleton]
      omega
    have hcond : ¬ (ys.drop (ys.length - cap) ++ [x]).length > cap := by
      simp only [h0, List.drop_zero, List.length_append, List.length_singleton]
      omega
    simp only [hcond, if_false, h0, h0', List.drop_zero]
    split <;> rfl
  · push_neg at hlen
    have hdlen : (ys.drop (ys.length - cap)).length = cap := by
      simp only [List.length_drop]
      omega
    have hcond : (ys.drop (ys.length - cap) ++ [x]).length > cap := by
      simp only [List.length_append, List.length_singleton, hdlen]
      omega
    simp only [hcond, if_true]
    have hk : (ys.drop (ys.length - cap) ++ [x]).length - cap = 1 := by
      simp only [List.length_append, List.length_singleton, hdlen]
      omega
    rw [hk]
    have h1 : (1 : Nat) ≤ (ys.drop (ys.length - cap)).length := by omega
    rw [List.drop_append_of_le_length h1, List.drop_drop]
    have hk2 : (ys ++ [x]).length - cap ≤ ys.length := by
      simp only [List.length_append, List.length_singleton]
      omega
    rw [List.drop_append_of_le_length hk2]
    have heq : ys.length - cap + 1 = (ys ++ [x]).length - cap := by
      simp only [List.length_append, List.length_singleton]
      omega
    rw [heq]

/-- Folding `boundedAppend cap` over any sequence of appended records,
starting from the empty stream, leaves exactly the last `cap` records (all
of them when fewer than `cap` were appended), in original relative order:
the suffix `xs.drop (xs.length - cap)`. -/
lemma foldl_boundedAppend (cap : Nat) (hcap : 1 ≤ cap) (xs : List α) :
    xs.foldl (boundedAppend cap) [] = xs.drop (xs.length - cap) := by
  induction xs using List.reverseRecOn with
  | nil => simp
  | append_singleton ys x ih =>
      rw [List.foldl_append, List.foldl_cons, List.foldl_nil, ih]
      exact boundedAppend_drop cap hcap ys x

/-! ### Processing runs of envelopes through the hook -/

/-- A run of `telemetry` envelopes folds `boundedAppend MAX_HISTORY` over the
telemetry history. -/
lemma telemetryHistory_foldl (s : HookState) (ds : List TelemetrySnapshot) :
    (((ds.map (fun d => HookEvent.inbound (.envelope (.telemetry d)))).foldl
        hookStep s).sinks.telemetryHistory)
      = ds.foldl (boundedAppend MAX_HISTORY) s.sinks.telemetryHistory := by
  induction ds generalizing s with
  | nil => rfl
  | cons d t ih =>
      simp only [List.map_cons, List.foldl_cons]
      rw [ih]
      rfl

/-- A run of `autopilot_decision` envelopes folds `boundedAppend
MAX_DECISIONS` over the decisions stream. -/
lemma decisions_foldl (s : HookState) (ds : List OptimizationDecision) :
    (((ds.map (fun d => HookEvent.inbound (.envelope (.autopilotDecision d)))).foldl
        hookStep s).sinks.decisions)
      = ds.foldl (boundedAppend MAX_DECISIONS) s.sinks.decisions := by
  induction ds generalizing s with
  | nil => rfl
  | cons d t ih =>
      simp only [List.map_cons, List.foldl_cons]
      rw [ih]
      rfl

/-- A run of `llm_explanation` envelopes folds `boundedAppend
MAX_EXPLANATIONS` over the explanations stream. -/
lemma explanations_foldl (s : HookState) (ds : List LlmExplanation) :
    (((ds.map (fun d => HookEvent.inbound (.envelope (.llmExplanation d)))).foldl
        hookStep s).sinks.explanations)
      = ds.foldl (boundedAppend MAX_EXPLANATIONS) s.sinks.explanations := by
  induction ds generalizing s with
  | nil => rfl
  | cons d t ih =>
      simp only [List.map_cons, List.foldl_cons]
      rw [ih]
      rfl

/-- A run of `advisor_suggestion` envelopes folds `boundedAppend
MAX_SUGGESTIONS` over the suggestions stream. -/
lemma suggestions_foldl (s : HookState) (ds : List AdvisorSuggestion) :
    (((ds.map (fun d => HookEvent.inbound (.envelope (.advisorSuggestion d)))).foldl
        hookStep s).sinks.suggestions)
      = ds.foldl (boundedAppend MAX_SUGGESTIONS) s.sinks.suggestions := by
  induction ds generalizing s with
  | nil => rfl
  | cons d t ih =>
      simp only [List.map_cons, List.foldl_cons]
      rw [ih]
      rfl

/-- C1: each bounded stream (telemetry capacity 120, decisions 50,
explanations 50, suggestions 20), after processing any sequence of `k`
appended records through the message handler starting from the fresh hook
state, holds exactly the suffix of the last `N` appended records in their
original relative order — `xs.drop (xs.length - N)`, which is all `k`
records when `k < N` and the last `N` when `k ≥ N`. -/
theorem bounded_streams_keep_last_capacity
    (ts : List TelemetrySnapshot) (ds : List OptimizationDecision)
    (ex : List LlmExplanation) (su : List AdvisorSuggestion) :
    ((((ts.map (fun d => HookEvent.inbound (.envelope (.telemetry d)))).foldl
        hookStep initState).sinks.telemetryHistory)
      = ts.drop (ts.length - MAX_HISTORY))
    ∧ ((((ds.map (fun d => HookEvent.inbound (.envelope (.autopilotDecision d)))).foldl
        hookStep initState).sinks.decisions)
      = ds.drop (ds.length - MAX_DECISIONS))
    ∧ ((((ex.map (fun d => HookEvent.inbound (.envelope (.llmExplanation d)))).foldl
        hookStep initState).sinks.explanations)
      = ex.drop (ex.length - MAX_EXPLANATIONS))
    ∧ ((((su.map (fun d => HookEvent.inbound (.envelope (.advisorSuggestion d)))).foldl
        hookStep initState).sinks.suggestions)
      = su.drop (su.length - MAX_SUGGESTIONS)) := by
  refine ⟨?_, ?_, ?_, ?_⟩
  · rw [telemetryHistory_foldl]
    exact foldl_boundedAppend MAX_HISTORY (by decide) ts
  · rw [decisions_foldl]
    exact foldl_boundedAppend MAX_DECISIONS (by decide) ds
  · rw [explanations_foldl]
    exact foldl_boundedAppend MAX_EXPLANATIONS (by decide) ex
  · rw [suggestions_foldl]
    exact foldl_boundedAppend MAX_SUGGESTIONS (by decide) su

/-! ### Connection manager: backoff and teardown -/

/-- Running `n` consecutive close events on a mounted manager schedules the
delays `backoffDelayMs retries, backoffDelayMs (retries+1), …`, incrementing
the retry counter once after each scheduling. -/
lemma closed_run (n : Nat) (s : ConnMgr) (hm : s.mounted = true) :
    (((List.replicate n ConnEvent.closed).foldl connStep s).scheduledLog
        = s.scheduledLog ++ (List.range n).map (fun i => backoffDelayMs (s.retries + i)))
    ∧ ((List.replicate n ConnEvent.closed).foldl connStep s).retries = s.retries + n
    ∧ ((List.replicate n ConnEvent.closed).foldl connStep s).mounted = true := by
  induction n generalizing s with
  | zero => simp [hm]
  | succ n ih =>
      rw [List.replicate_succ]
      simp only [List.foldl_cons]
      have hmount : (connStep s ConnEvent.closed).mounted = true := by
        simp [connStep, hm]
      have hlog : (connStep s ConnEvent.closed).scheduledLog
          = s.scheduledLog ++ [backoffDelayMs s.retries] := by
        simp [connStep, hm]
      have hret : (connStep s ConnEvent.closed).retries = s.retries + 1 := by
        simp [connStep, hm]
      obtain ⟨h1, h2, h3⟩ := ih (connStep s ConnEvent.closed) hmount
      refine ⟨?_, ?_, h3⟩
      · rw [h1, hlog, hret]
        rw [List.range_succ_eq_map, List.map_cons, List.map_map]
        have harg : ((fun i => backoffDelayMs (s.retries + i)) ∘ Nat.succ)
            = (fun i => backoffDelayMs (s.retries + 1 + i)) := by
          funext j
          simp only [Function.comp_apply, Nat.succ_eq_add_one]
          congr 1
          omega
        rw [harg]
        simp
      · rw [h2, hret]
        omega

/-- C2: the delay scheduled before the `n`-th consecutive reconnection
attempt from a fresh manager is `min(1000ms * 2^n, 30000ms)` — in 1-second
units `1000 * min(2^n, 30)`, the sequence `1, 2, 4, 8, 16, 30, 30, …` — with
the retry counter incremented after each scheduling; a reconnect timer
firing in between changes neither the retry counter nor the schedule log,
and a successful open resets the retry counter to 0 so that the next close
schedules a 1000ms (1-unit) delay again. -/
theorem backoff_delay_sequence (n i : Nat) (s : ConnMgr) (hm : s.mounted = true) :
    (((List.replicate n ConnEvent.closed).foldl connStep connInit).scheduledLog
        = (List.range n).map backoffDelayMs)
    ∧ backoffDelayMs i = 1000 * min (2 ^ i) 30
    ∧ ((List.range 7).map backoffDelayMs
        = [1000, 2000, 4000, 8000, 16000, 30000, 30000])
    ∧ ((connStep s ConnEvent.timerFire).retries = s.retries
        ∧ (connStep s ConnEvent.timerFire).scheduledLog = s.scheduledLog)
    ∧ ((connStep s ConnEvent.opened).retries = 0
        ∧ (connStep (connStep s ConnEvent.opened) ConnEvent.closed).scheduledLog
            = s.scheduledLog ++ [1000]) := by
  refine ⟨?_, ?_, by decide, ⟨?_, ?_⟩, ?_, ?_⟩
  · have h := (closed_run n connInit rfl).1
    simpa [connInit] using h
  · unfold backoffDelayMs
    rw [← Nat.mul_min_mul_left]
  · unfold connStep
    cases s.pendingReconnects with
    | nil => rfl
    | cons d rest => by_cases h : s.mounted <;> simp [h]
  · unfold connStep
    cases s.pendingReconnects with
    | nil => rfl
    | cons d rest => by_cases h : s.mounted <;> simp [h]
  · rfl
  · simp [connStep, hm, backoffDelayMs]

/-- Witness for `backoff_delay_sequence` at `n = 7`, `i = 5`, `s = connInit`. -/
theorem backoff_delay_sequence_witness :
    connInit.mounted = true ∧
    ((((List.replicate 7 ConnEvent.closed).foldl connStep connInit).scheduledLog
        = (List.range 7).map backoffDelayMs)
    ∧ backoffDelayMs 5 = 1000 * min (2 ^ 5) 30
    ∧ ((List.range 7).map backoffDelayMs
        = [1000, 2000, 4000, 8000, 16000, 30000, 30000])
    ∧ ((connStep connInit ConnEvent.timerFire).retries = connInit.retries
        ∧ (connStep connInit ConnEvent.timerFire).scheduledLog = connInit.scheduledLog)
    ∧ ((connStep connInit ConnEvent.opened).retries = 0
        ∧ (connStep (connStep connInit ConnEvent.opened) ConnEvent.closed).scheduledLog
            = connInit.scheduledLog ++ [1000])) :=
  ⟨rfl, backoff_delay_sequence 7 5 connInit rfl⟩

/-- On an unmounted manager no event creates a connection, schedules a
reconnect, or re-mounts: the cleanup sets only `mountedRef.current = false`
and `connect` returns immediately when unmounted. -/
lemma connStep_unmounted (s : ConnMgr) (e : ConnEvent) (hm : s.mounted = false) :
    (connStep s e).connectCount = s.connectCount
    ∧ (connStep s e).scheduledLog = s.scheduledLog
    ∧ (connStep s e).pendingReconnects.length ≤ s.pendingReconnects.length
    ∧ (connStep s e).mounted = false := by
  cases e with
  | connectCall => simp [connStep, hm]
  | opened => simp [connStep, hm]
  | closed => simp [connStep, hm]
  | timerFire =>
      cases h : s.pendingReconnects with
      | nil => simp [connStep, hm, h]
      | cons d rest => simp [connStep, hm, h]
  | teardown => simp [connStep, hm]

/-- Iterated form of `connStep_unmounted` over a whole event sequence. -/
lemma connRun_unmounted (es : List ConnEvent) (s : ConnMgr) (hm : s.mounted = false) :
    (es.foldl connStep s).connectCount = s.connectCount
    ∧ (es.foldl connStep s).scheduledLog = s.scheduledLog
    ∧ (es.foldl connStep s).mounted = false := by
  induction es generalizing s with
  | nil => exact ⟨rfl, rfl, hm⟩
  | cons e t ih =>
      simp only [List.foldl_cons]
      obtain ⟨hc, hl, _, hmm⟩ := connStep_unmounted s e hm
      obtain ⟨ihc, ihl, ihm⟩ := ih (connStep s e) hmm
      exact ⟨by rw [ihc, hc], by rw [ihl, hl], ihm⟩

/-- C6 counterexample: the unmount cleanup is only
`mountedRef.current = false; wsRef.current?.close()` — there is no
`clearTimeout` — so a reconnection timer scheduled by a close that happened
before teardown is still pending after teardown, refuting "any pending
reconnection timer is cancelled". Concretely: from a fresh mounted manager,
a close schedules a 1000ms reconnect timer, and tearing down leaves that
timer pending. -/
theorem teardown_leaves_timer_pending :
    (([ConnEvent.closed, ConnEvent.teardown]).foldl connStep connInit).pendingReconnects
      = [1000]
    ∧ ([1000] : List Nat) ≠ [] :=
  ⟨rfl, by decide⟩

/-- C6 amended: teardown closes the live transport and marks the manager
unmounted; it does NOT cancel the pending reconnection timers, but once
unmounted no event — a late transport close, a pending timer firing, or a
direct `connect` call — ever creates a new connection or schedules a
reconnection: `connect` returns immediately and `ws.onclose` schedules
nothing when unmounted. -/
theorem teardown_disables_reconnection (s : ConnMgr) (es : List ConnEvent)
    (hm : s.mounted = false) :
    ((connStep s ConnEvent.teardown).wsLive = false
      ∧ (connStep s ConnEvent.teardown).mounted = false
      ∧ (connStep s ConnEvent.teardown).pendingReconnects = s.pendingReconnects)
    ∧ ((es.foldl connStep s).connectCount = s.connectCount
      ∧ (es.foldl connStep s).scheduledLog = s.scheduledLog
      ∧ (es.foldl connStep s).mounted = false) :=
  ⟨⟨rfl, rfl, rfl⟩, connRun_unmounted es s hm⟩

/-- Witness for `teardown_disables_reconnection`: the torn-down fresh
manager with one pending timer, followed by a timer fire, a late close and
a direct connect call. -/
theorem teardown_disables_reconnection_witness :
    (([ConnEvent.closed, ConnEvent.teardown]).foldl connStep connInit).mounted = false
    ∧ (let s := ([ConnEvent.closed, ConnEvent.teardown]).foldl connStep connInit
       let es := [ConnEvent.timerFire, ConnEvent.closed, ConnEvent.connectCall]
       ((connStep s ConnEvent.teardown).wsLive = false
         ∧ (connStep s ConnEvent.teardown).mounted = false
         ∧ (connStep s ConnEvent.teardown).pendingReconnects = s.pendingReconnects)
       ∧ ((es.foldl connStep s).connectCount = s.connectCount
         ∧ (es.foldl connStep s).scheduledLog = s.scheduledLog
         ∧ (es.foldl connStep s).mounted = false)) :=
  ⟨rfl, teardown_disables_reconnection
    (([ConnEvent.closed, ConnEvent.teardown]).foldl connStep connInit)
    [ConnEvent.timerFire, ConnEvent.closed, ConnEvent.connectCall] rfl⟩

/-! ### The router on bad frames, and the notification channel -/

/-- C3: an inbound frame that fails to decode (the `catch` branch of
`JSON.parse`) or decodes to an envelope with an unrecognized `type` tag
(no `switch` case matches) leaves the hook state — every bounded stream,
every latest-value slot, the notification channel and the listener set —
unchanged and delivers nothing to the frame subscribers; `onMessage` is a
total function, so neither input crashes the client. -/
theorem bad_frame_is_noop (s : HookState) (tag : String) :
    onMessage s InboundFrame.malformed = (s, [])
    ∧ onMessage s (InboundFrame.envelope (WsMessage.other tag)) = (s, []) :=
  ⟨rfl, rfl⟩

/-- C4 counterexample: the `status` handler runs
`setTimeout(() => setNotification(null), 5000)` on every post and never
cancels an earlier timer, so the timer of a post at time 0 clears a
superseding notification posted at time 3000 when it fires at time 5000 —
before `3000 + 5000`, when the claim says the superseding notification must
still be visible. -/
theorem superseded_notification_cleared_early :
    (([NotifEvent.post 0 ⟨ "info", "first" ⟩,
       NotifEvent.post 3000 ⟨ "info", "second" ⟩,
       NotifEvent.fire 5000]).foldl notifStep ⟨none, []⟩).notification = none
    ∧ (5000 : Nat) < 3000 + 5000
    ∧ (none : Option NotificationValue) ≠ some ⟨ "info", "second" ⟩ :=
  ⟨by decide, by decide, by decide⟩

/-- C4 amended: a `status` notification posted at time T overwrites the
current value and schedules an unconditional clear at `T + 5000` without
cancelling any earlier timer. With no further posts the notification is
visible until its own timer fires at `T + 5000` and becomes empty then; a
superseding post replaces the visible value but does not restart the expiry
clock — the earlier post's timer keeps running and clears the superseding
notification when it fires at the earlier `T + 5000`, which can be sooner
than 5 seconds after the superseding post. -/
theorem notification_expiry_not_restarted (t1 t2 : Nat) (v1 v2 : NotificationValue) :
    (notifStep ⟨none, []⟩ (NotifEvent.post t1 v1)).notification = some v1
    ∧ (notifStep ⟨none, []⟩ (NotifEvent.post t1 v1)).timers = [t1 + 5000]
    ∧ (notifStep (notifStep ⟨none, []⟩ (NotifEvent.post t1 v1))
        (NotifEvent.fire (t1 + 5000))).notification = none
    ∧ (notifStep (notifStep ⟨none, []⟩ (NotifEvent.post t1 v1))
        (NotifEvent.post t2 v2)).notification = some v2
    ∧ (notifStep (notifStep ⟨none, []⟩ (NotifEvent.post t1 v1))
        (NotifEvent.post t2 v2)).timers = [t1 + 5000, t2 + 5000]
    ∧ (notifStep (notifStep (notifStep ⟨none, []⟩ (NotifEvent.post t1 v1))
        (NotifEvent.post t2 v2)) (NotifEvent.fire (t1 + 5000))).notification = none := by
  refine ⟨rfl, rfl, ?_, rfl, rfl, ?_⟩
  · simp [notifStep]
  · simp [notifStep]

/-! ### Frame publisher -/

/-- `Set.add` keeps the listener set duplicate-free. -/
lemma listenerAdd_nodup (s : List Nat) (cb : Nat) (h : s.Nodup) :
    (listenerAdd s cb).Nodup := by
  unfold listenerAdd
  by_cases hm : cb ∈ s
  · simpa [hm]
  · simp [hm, List.nodup_append, h]

/-- After `Set.add cb` the callback is a member. -/
lemma mem_listenerAdd (s : List Nat) (cb : Nat) : cb ∈ listenerAdd s cb := by
  unfold listenerAdd
  by_cases hm : cb ∈ s <;> simp [hm]

/-- `Set.add` of an already-present callback is a no-op. -/
lemma listenerAdd_of_mem (s : List Nat) (cb : Nat) (h : cb ∈ s) :
    listenerAdd s cb = s := by
  simp [listenerAdd, h]

/-- Pairing every callback with the published payload preserves counts. -/
lemma count_map_pair (l : List Nat) (cb : Nat) (d : VideoFrameData) :
    ((l.map (fun c => (c, d))).count (cb, d)) = l.count cb := by
  induction l with
  | nil => rfl
  | cons a t ih =>
      simp only [List.map_cons, List.count_cons, ih, Prod.mk.injEq]
      by_cases h : cb = a
      · simp [h]
      · simp [h]

/-- C5: after `subscribeToFrames cb`, processing a `video_frame` envelope
delivers the frame to `cb` exactly once; after the unsubscribe token
(`Set.delete cb`) runs, a publish delivers nothing to `cb`; and a `cb`
unsubscribed while a publish's `Set.forEach` iteration is in progress —
before its own visit — is skipped by that very publish. -/
theorem frame_subscribe_publish_unsubscribe
    (l : List Nat) (cb : Nat) (d : VideoFrameData) (hs : HookState)
    (removed : Nat → Bool) (hn : l.Nodup) (hr : removed cb = true) :
    ((onMessage { hs with frameListeners := listenerAdd l cb }
        (InboundFrame.envelope (WsMessage.videoFrame d))).2).count (cb, d) = 1
    ∧ ((onMessage { hs with frameListeners := listenerDelete (listenerAdd l cb) cb }
        (InboundFrame.envelope (WsMessage.videoFrame d))).2).count (cb, d) = 0
    ∧ cb ∉ publishCalls (listenerAdd l cb) removed := by
  refine ⟨?_, ?_, ?_⟩
  · show (((listenerAdd l cb).map (fun c => (c, d))).count (cb, d)) = 1
    rw [count_map_pair]
    exact List.count_eq_one_of_mem (listenerAdd_nodup l cb hn) (mem_listenerAdd l cb)
  · show (((listenerDelete (listenerAdd l cb) cb).map (fun c => (c, d))).count (cb, d)) = 0
    rw [count_map_pair]
    exact List.count_eq_zero.mpr (listenerAdd_nodup l cb hn).not_mem_erase
  · simp [publishCalls, List.mem_filter, hr]

/-- Witness for `frame_subscribe_publish_unsubscribe` with listener set
`[1, 2]`, callback `5`, and an unsubscription of `5` during iteration. -/
theorem frame_subscribe_publish_unsubscribe_witness :
    ([1, 2] : List Nat).Nodup ∧ (fun x => x == 5) 5 = true ∧
    (((onMessage { initState with frameListeners := listenerAdd [1, 2] 5 }
        (InboundFrame.envelope (WsMessage.videoFrame ⟨ "f0" ⟩))).2).count
          (5, (⟨ "f0" ⟩ : VideoFrameData)) = 1
    ∧ ((onMessage { initState with frameListeners := listenerDelete (listenerAdd [1, 2] 5) 5 }
        (InboundFrame.envelope (WsMessage.videoFrame ⟨ "f0" ⟩))).2).count
          (5, (⟨ "f0" ⟩ : VideoFrameData)) = 0
    ∧ 5 ∉ publishCalls (listenerAdd [1, 2] 5) (fun x => x == 5)) :=
  ⟨by decide, rfl,
    frame_subscribe_publish_unsubscribe [1, 2] 5 ⟨ "f0" ⟩ initState
      (fun x => x == 5) (by decide) rfl⟩

/-- C9: `Set.add` makes subscription idempotent per callback — adding an
already-subscribed callback is a no-op, a publish after repeated
subscription still invokes the callback exactly once, and a single
`Set.delete` then suffices to stop every future delivery. -/
theorem frame_subscription_idempotent (l : List Nat) (cb : Nat)
    (hn : l.Nodup) (hmem : cb ∈ l) :
    listenerAdd l cb = l
    ∧ listenerAdd (listenerAdd l cb) cb = listenerAdd l cb
    ∧ (publishCalls (listenerAdd (listenerAdd l cb) cb) (fun _ => false)).count cb = 1
    ∧ cb ∉ publishCalls (listenerDelete (listenerAdd (listenerAdd l cb) cb) cb)
        (fun _ => false) := by
  have hadd : listenerAdd l cb = l := listenerAdd_of_mem l cb hmem
  have hnodup : (listenerAdd (listenerAdd l cb) cb).Nodup :=
    listenerAdd_nodup _ cb (listenerAdd_nodup l cb hn)
  refine ⟨hadd, ?_, ?_, ?_⟩
  · exact listenerAdd_of_mem _ cb (mem_listenerAdd l cb)
  · have : publishCalls (listenerAdd (listenerAdd l cb) cb) (fun _ => false)
        = listenerAdd (listenerAdd l cb) cb := by
      simp [publishCalls]
    rw [this]
    exact List.count_eq_one_of_mem hnodup (mem_listenerAdd _ cb)
  · have : publishCalls (listenerDelete (listenerAdd (listenerAdd l cb) cb) cb)
        (fun _ => false) = listenerDelete (listenerAdd (listenerAdd l cb) cb) cb := by
      simp [publishCalls]
    rw [this]
    exact hnodup.not_mem_erase

/-- Witness for `frame_subscription_idempotent` with listener set `[3, 7]`
and callback `7`. -/
theorem frame_subscription_idempotent_witness :
    ([3, 7] : List Nat).Nodup ∧ (7 : Nat) ∈ [3, 7] ∧
    (listenerAdd [3, 7] 7 = [3, 7]
    ∧ listenerAdd (listenerAdd [3, 7] 7) 7 = listenerAdd [3, 7] 7
    ∧ (publishCalls (listenerAdd (listenerAdd [3, 7] 7) 7) (fun _ => false)).count 7 = 1
    ∧ 7 ∉ publishCalls (listenerDelete (listenerAdd (listenerAdd [3, 7] 7) 7) 7)
        (fun _ => false)) :=
  ⟨by decide, by decide,
    frame_subscription_idempotent [3, 7] 7 (by decide) (by decide)⟩

/-! ### Persistence across reconnects, resets, and the slot/history invariant -/

/-- C7: `ws.onclose` and `ws.onopen` touch only the `connected` flag and the
retry counter, so a close/reconnect cycle leaves every accumulated sink —
all bounded streams, all latest-value slots and the notification — exactly
as it was; an explicit reset empties every sink, and a telemetry envelope
arriving after the reset still dispatches normally into the freshly emptied
slot and history. -/
theorem reconnect_preserves_sinks_reset_clears (s : HookState) (d : TelemetrySnapshot) :
    (hookStep s HookEvent.closed).sinks = s.sinks
    ∧ (hookStep s HookEvent.opened).sinks = s.sinks
    ∧ (hookStep (hookStep s HookEvent.closed) HookEvent.opened).sinks = s.sinks
    ∧ (resetState s).sinks = emptySinks
    ∧ (hookStep (resetState s)
        (HookEvent.inbound (InboundFrame.envelope (WsMessage.telemetry d)))).sinks.telemetry
        = some d
    ∧ (hookStep (resetState s)
        (HookEvent.inbound (InboundFrame.envelope (WsMessage.telemetry d)))).sinks.telemetryHistory
        = [d] :=
  ⟨rfl, rfl, rfl, rfl, rfl, rfl⟩

/-- Every event of the hook preserves the invariant that the telemetry
latest-value slot holds the last element of the telemetry history (`none`
when the history is empty): the telemetry case updates both together, reset
clears both together, and no other case touches either. -/
lemma telemetry_slot_step (s : HookState) (e : HookEvent)
    (h : s.sinks.telemetry = s.sinks.telemetryHistory.getLast?) :
    (hookStep s e).sinks.telemetry = (hookStep s e).sinks.telemetryHistory.getLast? := by
  cases e with
  | inbound f =>
      cases f with
      | malformed => exact h
      | envelope msg =>
          cases msg with
          | telemetry d =>
              exact (getLast?_boundedAppend MAX_HISTORY (by decide)
                s.sinks.telemetryHistory d).symm
          | autopilotDecision d => exact h
          | llmExplanation d => exact h
          | videoFrame d => exact h
          | advisorSuggestion d => exact h
          | detectionSummary d => exact h
          | sourceProgress d => exact h
          | status d => exact h
          | other tag => exact h
  | reset => rfl
  | opened => exact h
  | closed => exact h
  | notifTimer => exact h
  | subscribeFrames cb => exact h
  | unsubscribeFrames cb => exact h

/-- C8: after any sequence of processed events (envelopes, resets,
connection transitions, timer fires, subscriptions) from the fresh hook
state, the telemetry latest-value slot equals the last element of the
telemetry history — in particular it is `none` exactly when the history is
empty, and otherwise holds the history's last record. -/
theorem telemetry_slot_tracks_history (es : List HookEvent) :
    ((es.foldl hookStep initState).sinks.telemetry)
      = ((es.foldl hookStep initState).sinks.telemetryHistory.getLast?) := by
  have main : ∀ (t : List HookEvent) (s : HookState),
      s.sinks.telemetry = s.sinks.telemetryHistory.getLast? →
      (t.foldl hookStep s).sinks.telemetry
        = (t.foldl hookStep s).sinks.telemetryHistory.getLast? := by
    intro t
    induction t with
    | nil => exact fun s h => h
    | cons e t ih =>
        intro s h
        exact ih (hookStep s e) (telemetry_slot_step s e h)
  exact main es initState rfl

/-- C10: `resetState` writes only the sink setters — the WebSocket object in
`wsRef`, the `connected` flag, the retry counter in `retriesRef`, the
`mountedRef` flag and the frame-listener set are all left unchanged, so the
backoff state after a reset is whatever it was before, and a `video_frame`
envelope processed right after the reset is still delivered to exactly the
previously registered subscribers. -/
theorem reset_touches_only_sinks (s : HookState) (d : VideoFrameData) :
    (resetState s).connected = s.connected
    ∧ (resetState s).ws = s.ws
    ∧ (resetState s).retries = s.retries
    ∧ (resetState s).mounted = s.mounted
    ∧ (resetState s).frameListeners = s.frameListeners
    ∧ (onMessage (resetState s) (InboundFrame.envelope (WsMessage.videoFrame d))).2
        = s.frameListeners.map (fun cb => (cb, d)) :=
  ⟨rfl, rfl, rfl, rfl, rfl, rfl⟩

end EdgeTune
